import Mathlib

/-!
Shallow embedding of `src/yallah.py` (a four-step HTTP/parse pipeline that
resolves the JavaScript bundle paths of a web-portal application) together
with theorems settling the frozen claims about it.

Modelling conventions:
* Python/JSON values flowing through the script are modelled by the
  inductive type `Json`.  JSON numbers with a fraction or exponent
  (Python floats) are kept as their source literal in the `fnum`
  constructor; no claim depends on float arithmetic.  Python `None` is
  `Json.null`, and "key absent" from `dict.get` is `Option.none`.
* Python `dict`s are association lists whose keys are unique by
  construction (the JSON parser keeps the first position and last value
  of a duplicated key, as `dict` does).
* Machine-level string functions (`base64.b64decode` in its default
  non-strict mode, strict UTF-8 decoding, `json.loads`, the single
  regular expression of the script, `str.split`, `urllib.parse`
  scheme/hostname extraction) are translated to executable Lean
  functions.  Case-insensitivity (`re.IGNORECASE`, `str.lower`) is
  modelled by ASCII case folding, which agrees with Python on every
  input considered here.
* The process environment (command line and HTTP) is a `World`; the HTTP
  oracle maps a URL and a timeout to either a transport error or a
  response carrying a status code, its text body, and the value
  `resp.json()` would produce.  The whole program `main` maps a `World`
  to a `PyOutcome`: a normal exit with captured stdout/stderr lines, or
  a crash (uncaught exception).
-/

/-- JSON/Python values.  `fnum` keeps the literal text of a float-typed
JSON number; `null` is Python `None`. -/
inductive Json where
  | null
  | bool (b : Bool)
  | num (n : Int)
  | fnum (lit : String)
  | str (s : String)
  | arr (elems : List Json)
  | obj (fields : List (String × Json))

mutual

/-- Structural (Python `==`) equality on `Json` values. -/
def Json.beq : Json → Json → Bool
  | .null, .null => true
  | .bool a, .bool b => a == b
  | .num a, .num b => a == b
  | .fnum a, .fnum b => a == b
  | .str a, .str b => a == b
  | .arr a, .arr b => Json.beqList a b
  | .obj a, .obj b => Json.beqFields a b
  | _, _ => false

/-- Elementwise `Json.beq` on lists. -/
def Json.beqList : List Json → List Json → Bool
  | [], [] => true
  | x :: xs, y :: ys => Json.beq x y && Json.beqList xs ys
  | _, _ => false

/-- Elementwise `Json.beq` on association lists. -/
def Json.beqFields : List (String × Json) → List (String × Json) → Bool
  | [], [] => true
  | (k1, v1) :: xs, (k2, v2) :: ys => k1 == k2 && Json.beq v1 v2 && Json.beqFields xs ys
  | _, _ => false

end

/-- `Json.beq` against a string value decides propositional equality. -/
theorem Json.beq_str_iff (v : Json) (s : String) :
    Json.beq v (Json.str s) = true ↔ v = Json.str s := by
  cases v <;> simp [Json.beq]

/-- Python `dict.get(k)` on an association list: value of the first
binding of `k`, or `none` when absent (parsed objects bind each key at
most once). -/
def py_get : List (String × Json) → String → Option Json
  | [], _ => none
  | (k2, v) :: rest, k => if k2 == k then some v else py_get rest k

/-- Python truthiness of a value (`if config:` etc.).  The zero-valued
float literals are the ones Python treats as falsy among the float
literals producible by `json.loads`. -/
def Json.isTruthy : Json → Bool
  | .null => false
  | .bool b => b
  | .num n => n != 0
  | .fnum lit => !(lit == "0.0" || lit == "-0.0")
  | .str s => !(s == "")
  | .arr l => !l.isEmpty
  | .obj kvs => !kvs.isEmpty

mutual

/-- Python `repr` of a JSON-produced value, as used by `str` on
containers.  String escaping inside `repr` is modelled for strings
without quotes or backslashes, the only ones reached here. -/
def Json.pyRepr : Json → String
  | .null => "None"
  | .bool b => if b then "True" else "False"
  | .num n => toString n
  | .fnum lit => lit
  | .str s => "\x27" ++ s ++ "\x27"
  | .arr l => "[" ++ Json.pyReprList l ++ "]"
  | .obj kvs => "\x7b" ++ Json.pyReprFields kvs ++ "\x7d"

/-- Comma-separated `repr` of list elements. -/
def Json.pyReprList : List Json → String
  | [] => ""
  | [x] => Json.pyRepr x
  | x :: xs => Json.pyRepr x ++ ", " ++ Json.pyReprList xs

/-- Comma-separated `repr` of dict items. -/
def Json.pyReprFields : List (String × Json) → String
  | [] => ""
  | [(k, v)] => "\x27" ++ k ++ "\x27: " ++ Json.pyRepr v
  | (k, v) :: kvs => "\x27" ++ k ++ "\x27: " ++ Json.pyRepr v ++ ", " ++ Json.pyReprFields kvs

end

/-- Python `str()` of a JSON-produced value (f-string interpolation). -/
def Json.pyStr : Json → String
  | .str s => s
  | v => Json.pyRepr v

/-- Python iteration protocol on a JSON-produced value: lists yield their
elements, dicts their keys, strings their characters; other values are
not iterable (`.error ()` models the `TypeError`). -/
def pyIterate : Json → Except Unit (List Json)
  | .arr l => .ok l
  | .obj kvs => .ok (kvs.map fun kv => Json.str kv.1)
  | .str s => .ok (s.toList.map fun c => Json.str (String.singleton c))
  | _ => .error ()

/-! ## base64 (`base64.b64decode`, default non-strict mode) -/

/-- Value of a standard-alphabet base64 character. -/
def b64val (c : Char) : Option Nat :=
  if 'A' ≤ c ∧ c ≤ 'Z' then some (c.toNat - 'A'.toNat)
  else if 'a' ≤ c ∧ c ≤ 'z' then some (c.toNat - 'a'.toNat + 26)
  else if '0' ≤ c ∧ c ≤ '9' then some (c.toNat - '0'.toNat + 52)
  else if c = '+' then some 62
  else if c = '/' then some 63
  else none

/-- One step of `binascii.a2b_base64` in non-strict mode: invalid
characters are skipped, `=` only counts as padding once two data
characters of the current group have been seen, decoding stops at
complete padding, and an incomplete final group is an error.
`quad` is the position in the current 4-character group, `acc` its
accumulated bits, `pads` the pending padding count, `out` the decoded
bytes in reverse order. -/
def b64loop : List Char → Nat → Nat → Nat → List Nat → Option (List Nat)
  | [], quad, _, _, out =>
    if quad = 0 then some out.reverse else none
  | c :: rest, quad, acc, pads, out =>
    if c = '=' then
      if 2 ≤ quad then
        if 4 ≤ quad + (pads + 1) then
          some (out.reverse ++
            (if quad = 2 then [acc / 16] else [acc / 1024, acc / 4 % 256]))
        else b64loop rest quad acc (pads + 1) out
      else b64loop rest quad acc pads out
    else
      match b64val c with
      | none => b64loop rest quad acc pads out
      | some v =>
        let acc2 := acc * 64 + v
        if quad = 3 then
          b64loop rest 0 0 0 (acc2 % 256 :: acc2 / 256 % 256 :: acc2 / 65536 :: out)
        else b64loop rest (quad + 1) acc2 0 out

/-- `base64.b64decode` on a Python `str`: fails on non-ASCII input
(the implicit `.encode("ascii")`), otherwise runs the non-strict
decoder. -/
def b64decode (s : String) : Option (List Nat) :=
  if s.toList.any (fun c => 127 < c.toNat) then none
  else b64loop s.toList 0 0 0 []

/-! ## strict UTF-8 decoding (`bytes.decode("utf-8")`) -/

/-- Is `b` a UTF-8 continuation byte? -/
def isCont (b : Nat) : Bool := 128 ≤ b ∧ b < 192

/-- Strict UTF-8 decoder: rejects overlong forms, surrogates, values
above `0x10FFFF`, and truncated sequences, exactly as Python's
`.decode("utf-8")`. -/
def utf8Decode : List Nat → Option (List Char)
  | [] => some []
  | b :: rest =>
    if b < 128 then
      (utf8Decode rest).map (fun cs => Char.ofNat b :: cs)
    else if 194 ≤ b ∧ b ≤ 223 then
      match rest with
      | b1 :: rest2 =>
        if isCont b1 then
          (utf8Decode rest2).map (fun cs => Char.ofNat ((b - 192) * 64 + (b1 - 128)) :: cs)
        else none
      | [] => none
    else if 224 ≤ b ∧ b ≤ 239 then
      match rest with
      | b1 :: b2 :: rest2 =>
        let lo1 := if b = 224 then 160 else 128
        let hi1 := if b = 237 then 159 else 191
        if (lo1 ≤ b1 ∧ b1 ≤ hi1) ∧ isCont b2 then
          (utf8Decode rest2).map (fun cs =>
            Char.ofNat ((b - 224) * 4096 + (b1 - 128) * 64 + (b2 - 128)) :: cs)
        else none
      | _ => none
    else if 240 ≤ b ∧ b ≤ 244 then
      match rest with
      | b1 :: b2 :: b3 :: rest2 =>
        let lo1 := if b = 240 then 144 else 128
        let hi1 := if b = 244 then 143 else 191
        if (lo1 ≤ b1 ∧ b1 ≤ hi1) ∧ isCont b2 ∧ isCont b3 then
          (utf8Decode rest2).map (fun cs =>
            Char.ofNat ((b - 240) * 262144 + (b1 - 128) * 4096 + (b2 - 128) * 64 + (b3 - 128)) :: cs)
        else none
      | _ => none
    else none

/-! ## `json.loads` -/

/-- JSON whitespace. -/
def jsonWs (c : Char) : Bool := c == ' ' || c == '\t' || c == '\n' || c == '\r'

/-- Skip JSON whitespace. -/
def skipWs (cs : List Char) : List Char := cs.dropWhile jsonWs

/-- The double-quote character. -/
def dquote : Char := Char.ofNat 34

/-- The single-quote character. -/
def squote : Char := Char.ofNat 39

/-- The backslash character. -/
def bslash : Char := Char.ofNat 92

/-- The opening-brace character. -/
def lbrace : Char := Char.ofNat 123

/-- The closing-brace character. -/
def rbrace : Char := Char.ofNat 125

/-- Value of a hexadecimal digit. -/
def hexVal (c : Char) : Option Nat :=
  if '0' ≤ c ∧ c ≤ '9' then some (c.toNat - '0'.toNat)
  else if 'a' ≤ c ∧ c ≤ 'f' then some (c.toNat - 'a'.toNat + 10)
  else if 'A' ≤ c ∧ c ≤ 'F' then some (c.toNat - 'A'.toNat + 10)
  else none

/-- Read exactly four hexadecimal digits. -/
def hex4 : List Char → Option (Nat × List Char)
  | a :: b :: c :: d :: rest =>
    match hexVal a, hexVal b, hexVal c, hexVal d with
    | some x, some y, some z, some w => some (((x * 16 + y) * 16 + z) * 16 + w, rest)
    | _, _, _, _ => none
  | _ => none

/-- Single-character JSON string escapes. -/
def escChar (e : Char) : Option Char :=
  if e = dquote then some dquote
  else if e = bslash then some bslash
  else if e = '/' then some '/'
  else if e = 'b' then some (Char.ofNat 8)
  else if e = 'f' then some (Char.ofNat 12)
  else if e = 'n' then some (Char.ofNat 10)
  else if e = 'r' then some (Char.ofNat 13)
  else if e = 't' then some (Char.ofNat 9)
  else none

/-- Boolean list-prefix test. -/
def hasPrefix (p cs : List Char) : Bool := List.isPrefixOf p cs

/-- Body of a JSON string after the opening quote.  Surrogate escape
pairs are combined; a lone surrogate escape (which Python would keep as
an unpaired surrogate code unit, not representable in `Char`) is
modelled as a parse failure — no input considered in this development
contains one.  Unescaped control characters are rejected (`strict`
mode), as Python does. -/
def parseStrBody : Nat → List Char → List Char → Option (String × List Char)
  | 0, _, _ => none
  | fuel + 1, cs, acc =>
    match cs with
    | [] => none
    | c :: rest =>
      if c = dquote then some (String.mk acc.reverse, rest)
      else if c = bslash then
        match rest with
        | [] => none
        | e :: rest2 =>
          if e = 'u' then
            match hex4 rest2 with
            | none => none
            | some (cp, rest3) =>
              if 0xD800 ≤ cp ∧ cp ≤ 0xDBFF then
                match rest3 with
                | b2 :: u2 :: rest4 =>
                  if b2 = bslash ∧ u2 = 'u' then
                    match hex4 rest4 with
                    | some (cp2, rest5) =>
                      if 0xDC00 ≤ cp2 ∧ cp2 ≤ 0xDFFF then
                        parseStrBody fuel rest5
                          (Char.ofNat (0x10000 + (cp - 0xD800) * 1024 + (cp2 - 0xDC00)) :: acc)
                      else none
                    | none => none
                  else none
                | _ => none
              else if 0xDC00 ≤ cp ∧ cp ≤ 0xDFFF then none
              else parseStrBody fuel rest3 (Char.ofNat cp :: acc)
          else
            match escChar e with
            | some ch => parseStrBody fuel rest2 (ch :: acc)
            | none => none
      else if c.toNat < 32 then none
      else parseStrBody fuel rest (c :: acc)

/-- A JSON number at the head of the input, following the grammar
`-?(0|[1-9][0-9]*)(\.[0-9]+)?([eE][+-]?[0-9]+)?`; each optional part is
taken only when complete, as the regex backtracks otherwise.  Pure
integer literals become `Json.num`; a fraction or exponent makes the
value a Python float, kept as its literal in `Json.fnum`. -/
def parseNumber (cs : List Char) : Option (Json × List Char) :=
  let signed := match cs with
    | c :: r => if c = '-' then (true, r) else (false, cs)
    | [] => (false, cs)
  let neg := signed.1
  let cs1 := signed.2
  match cs1 with
  | [] => none
  | d :: _ =>
    if !d.isDigit then none
    else
      let ipart := if d = '0' then (['0'], cs1.drop 1)
        else (cs1.takeWhile Char.isDigit, cs1.dropWhile Char.isDigit)
      let intDigits := ipart.1
      let cs2 := ipart.2
      let fpart := match cs2 with
        | dot :: r =>
          if dot = '.' then
            let ds := r.takeWhile Char.isDigit
            if ds.isEmpty then ([], cs2) else ('.' :: ds, r.dropWhile Char.isDigit)
          else ([], cs2)
        | [] => ([], cs2)
      let fracDigits := fpart.1
      let cs3 := fpart.2
      let epart := match cs3 with
        | e :: r =>
          if e == 'e' || e == 'E' then
            let spart := match r with
              | s :: rr => if s = '+' ∨ s = '-' then ([s], rr) else ([], r)
              | [] => ([], r)
            let ds := spart.2.takeWhile Char.isDigit
            if ds.isEmpty then ([], cs3)
            else (e :: (spart.1 ++ ds), spart.2.dropWhile Char.isDigit)
          else ([], cs3)
        | [] => ([], cs3)
      let expDigits := epart.1
      let cs4 := epart.2
      if fracDigits.isEmpty ∧ expDigits.isEmpty then
        let v : Nat := intDigits.foldl (fun a c => a * 10 + (c.toNat - '0'.toNat)) 0
        some (Json.num (if neg then -(v : Int) else (v : Int)), cs2)
      else
        some (Json.fnum (String.mk ((if neg then ['-'] else []) ++ intDigits ++ fracDigits ++ expDigits)), cs4)

/-- Bind `k := v` in a Python dict modelled as an association list:
replace the value at an existing key (keeping its position), else
append. -/
def objInsert : List (String × Json) → String → Json → List (String × Json)
  | [], k, v => [(k, v)]
  | (k2, v2) :: rest, k, v =>
    if k2 == k then (k2, v) :: rest else (k2, v2) :: objInsert rest k v

mutual

/-- One JSON value at the head of the (non-whitespace) input, returning
it with the unconsumed rest.  The fuel only bounds nesting of the
mutual recursion; `json_loads` supplies enough for any input. -/
def parseValue : Nat → List Char → Option (Json × List Char)
  | 0, _ => none
  | fuel + 1, cs =>
    match cs with
    | [] => none
    | c :: rest =>
      if c = lbrace then
        let cs2 := skipWs rest
        match cs2 with
        | r :: rest2 => if r = rbrace then some (Json.obj [], rest2) else parseMembers fuel cs2 []
        | [] => none
      else if c = '[' then
        let cs2 := skipWs rest
        match cs2 with
        | r :: rest2 => if r = ']' then some (Json.arr [], rest2) else parseItems fuel cs2 []
        | [] => none
      else if c = dquote then
        match parseStrBody (rest.length + 1) rest [] with
        | some (s, rest2) => some (Json.str s, rest2)
        | none => none
      else if hasPrefix "true".toList cs then some (Json.bool true, cs.drop 4)
      else if hasPrefix "false".toList cs then some (Json.bool false, cs.drop 5)
      else if hasPrefix "null".toList cs then some (Json.null, cs.drop 4)
      else if hasPrefix "NaN".toList cs then some (Json.fnum "NaN", cs.drop 3)
      else if hasPrefix "Infinity".toList cs then some (Json.fnum "Infinity", cs.drop 8)
      else if hasPrefix "-Infinity".toList cs then some (Json.fnum "-Infinity", cs.drop 9)
      else parseNumber cs

/-- Members of a JSON object after `{`, accumulating into a dict. -/
def parseMembers : Nat → List Char → List (String × Json) → Option (Json × List Char)
  | 0, _, _ => none
  | fuel + 1, cs, acc =>
    match cs with
    | [] => none
    | c :: rest =>
      if c = dquote then
        match parseStrBody (rest.length + 1) rest [] with
        | some (k, rest2) =>
          match skipWs rest2 with
          | colon :: rest3 =>
            if colon = ':' then
              match parseValue fuel (skipWs rest3) with
              | some (v, rest4) =>
                let acc2 := objInsert acc k v
                match skipWs rest4 with
                | d :: rest5 =>
                  if d = ',' then parseMembers fuel (skipWs rest5) acc2
                  else if d = rbrace then some (Json.obj acc2, rest5)
                  else none
                | [] => none
              | none => none
            else none
          | [] => none
        | none => none
      else none

/-- Items of a JSON array after `[`. -/
def parseItems : Nat → List Char → List Json → Option (Json × List Char)
  | 0, _, _ => none
  | fuel + 1, cs, acc =>
    match parseValue fuel cs with
    | some (v, rest) =>
      match skipWs rest with
      | d :: rest2 =>
        if d = ',' then parseItems fuel (skipWs rest2) (v :: acc)
        else if d = ']' then some (Json.arr (v :: acc).reverse, rest2)
        else none
      | [] => none
    | none => none

end

/-- `json.loads`: skip leading whitespace, parse one value, require only
whitespace to remain (`Extra data` otherwise).  `none` models the
`JSONDecodeError` exception. -/
def json_loads (s : String) : Option Json :=
  match parseValue (s.toList.length + 1) (skipWs s.toList) with
  | some (v, rest) => if (skipWs rest).isEmpty then some v else none
  | none => none

/-! ## The bootstrap regular expression

The script's only regex,
`<script[^>]+id=["\x27]cl-bootstrap["\x27][^>]+src=["\x27]([^"#]+)#([^"\x27]+)["\x27]`
with `re.IGNORECASE`, is a plain sequence of single-character atoms and
greedy one-or-more character classes, embedded as a backtracking
matcher with Python's semantics: `re.search` tries start positions left
to right, and each greedy class tries its longest extent first. -/

/-- First hit of `f` over a list of candidate counts. -/
def firstSome (f : Nat → Option α) : List Nat → Option α
  | [] => none
  | k :: ks =>
    match f k with
    | some r => some r
    | none => firstSome f ks

/-- The list `[n, n-1, ..., 1]`: candidate extents of a greedy `+`,
longest first. -/
def countdown : Nat → List Nat
  | 0 => []
  | n + 1 => (n + 1) :: countdown n

/-- A regex atom: a single character of a class, or a greedy `+` over a
class, optionally capturing. -/
inductive Atom where
  | one (p : Char → Bool)
  | plus (p : Char → Bool) (cap : Bool)

/-- Match a sequence of atoms at the start of `cs` (the rest of the
input is unconstrained, as for an unanchored search), returning the
captures in order.  A greedy `+` takes the longest prefix of its class
and backtracks. -/
def matchAtoms : List Atom → List Char → Option (List (List Char))
  | [], _ => some []
  | .one p :: as, cs =>
    match cs with
    | [] => none
    | c :: cs2 => if p c then matchAtoms as cs2 else none
  | .plus p cap :: as, cs =>
    firstSome (fun k =>
      match matchAtoms as (cs.drop k) with
      | some caps => some (if cap then cs.take k :: caps else caps)
      | none => none) (countdown (cs.takeWhile p).length)

/-- `re.search`: try every start position, leftmost first. -/
def searchFrom (atoms : List Atom) : List Char → Option (List (List Char))
  | [] => matchAtoms atoms []
  | c :: rest =>
    match matchAtoms atoms (c :: rest) with
    | some caps => some caps
    | none => searchFrom atoms rest

/-- Case-insensitive single character (the pattern's letters are all
lower case; ASCII folding, see the header comment). -/
def ciChar (c : Char) : Char → Bool := fun x => x.toLower == c

/-- The class `["\x27]`. -/
def isQuote (c : Char) : Bool := c == dquote || c == squote

/-- The class `[^>]`. -/
def notGtCls (c : Char) : Bool := c != '>'

/-- The class `[^"#]` of capture group 1. -/
def g1Cls (c : Char) : Bool := c != dquote && c != '#'

/-- The class `[^"\x27]` of capture group 2. -/
def g2Cls (c : Char) : Bool := c != dquote && c != squote

/-- A literal string of the pattern, case-insensitively. -/
def lits (s : String) : List Atom := s.toList.map (fun c => Atom.one (ciChar c))

/-- The bootstrap regex as an atom sequence. -/
def clRegex : List Atom :=
  lits "<script" ++ [Atom.plus notGtCls false] ++ lits "id=" ++ [Atom.one isQuote] ++
    lits "cl-bootstrap" ++ [Atom.one isQuote] ++ [Atom.plus notGtCls false] ++ lits "src=" ++
    [Atom.one isQuote, Atom.plus g1Cls true, Atom.one (fun c => c == '#'),
      Atom.plus g2Cls true, Atom.one isQuote]

/-- `re.search` of the bootstrap regex over a page, returning the two
captured groups (the `src` part before `#`, and the fragment). -/
def regexSearch (page : String) : Option (String × String) :=
  match searchFrom clRegex page.toList with
  | some [g1, g2] => some (String.mk g1, String.mk g2)
  | _ => none

/-- `parse_bootstrap_config` (source lines 29-44): find the bootstrap
script tag, base64-decode the fragment after `#`, UTF-8-decode it and
parse it as JSON.  Any failure inside the `try` block yields `none`;
NOTE the function returns whatever JSON value was parsed, object or
not. -/
def parse_bootstrap_config (page : String) : Option Json :=
  match regexSearch page with
  | none => none
  | some (_, encoded_fragment) =>
    match (b64decode encoded_fragment).bind utf8Decode with
    | none => none
    | some chars => json_loads (String.mk chars)

/-! ## Environment resolver -/

/-- Python `str.split(".")`: the empty string yields `[""]`, and
consecutive separators yield empty labels. -/
def splitDot : List Char → List String
  | [] => [""]
  | c :: rest =>
    let r := splitDot rest
    if c == '.' then "" :: r
    else
      match r with
      | s :: tail => (String.singleton c ++ s) :: tail
      | [] => [String.singleton c]

/-- Python `str.lower` (ASCII folding, see the header comment). -/
def strLower (s : String) : String := String.mk (s.toList.map Char.toLower)

/-- `determine_env_type` (source lines 14-26): split the hostname on
`.`; an empty split means `prod`; a first label `sandbox` means `prod`;
otherwise a second label `dev` or `ondemand` means `dev`; default
`prod`. -/
def determine_env_type (hostname : String) : String :=
  let parts := splitDot hostname.toList
  match parts with
  | [] => "prod"
  | p0 :: rest =>
    if strLower p0 == "sandbox" then "prod"
    else
      match rest with
      | p1 :: _ =>
        if strLower p1 == "dev" || strLower p1 == "ondemand" then "dev" else "prod"
      | [] => "prod"

/-- The environment algorithm exactly as the claim's words state it,
written independently of `determine_env_type` for comparison: if the
split is empty return `prod`; if the first label is `sandbox`
(case-insensitively) return `prod` regardless of the rest; otherwise if
a second label exists and equals `dev` or `ondemand` return `dev`; else
`prod`. -/
def resolve_environment_spec (hostname : String) : String :=
  let parts := splitDot hostname.toList
  if parts.isEmpty then "prod"
  else if parts.head?.map strLower = some "sandbox" then "prod"
  else if parts[1]?.map strLower = some "dev" ∨ parts[1]?.map strLower = some "ondemand" then
    "dev"
  else "prod"

/-! ## `urllib.parse` (scheme and hostname only, as used by `main`) -/

/-- Characters allowed in a URL scheme. -/
def scheme_char (c : Char) : Bool := c.isAlpha || c.isDigit || c == '+' || c == '-' || c == '.'

/-- `urlparse(u).scheme`: the text before the first `:` when it starts
with an ASCII letter and consists of scheme characters, lower-cased;
otherwise empty. -/
def url_scheme (u : String) : String :=
  let cs := u.toList
  match cs.findIdx? (· == ':') with
  | none => ""
  | some i =>
    match cs with
    | [] => ""
    | c0 :: _ =>
      if 0 < i ∧ c0.isAlpha ∧ (cs.take i).all scheme_char then strLower (String.mk (cs.take i))
      else ""

/-- The suffix after the last `@` (`str.rpartition`); the whole list
when there is no `@`. -/
def afterLastAt (cs : List Char) : List Char :=
  (cs.reverse.takeWhile (fun c => c != '@')).reverse

/-- `urlparse(u).hostname`: the netloc is the text between `//` and the
next `/`, `?` or `#`; user info up to the last `@` is dropped; a
bracketed IPv6 literal is the text between `[` and `]`, otherwise the
port after `:` is dropped; the result is lower-cased, and an absent or
empty host is `none`. -/
def url_hostname (u : String) : Option String :=
  let cs := u.toList
  let rest :=
    if url_scheme u == "" then cs
    else cs.drop (((cs.findIdx? (· == ':')).getD 0) + 1)
  match rest with
  | s1 :: s2 :: rest2 =>
    if s1 = '/' ∧ s2 = '/' then
      let netloc := rest2.takeWhile (fun c => c != '/' && c != '?' && c != '#')
      let hostinfo := afterLastAt netloc
      let host :=
        if hostinfo.contains '[' then
          ((hostinfo.dropWhile (fun c => c != '[')).drop 1).takeWhile (fun c => c != ']')
        else hostinfo.takeWhile (fun c => c != ':')
      if host.isEmpty then none else some (strLower (String.mk host))
    else none
  | _ => none

/-! ## HTTP layer and the pipeline stages -/

/-- An HTTP response as observed by the script: the status code, the
decoded text body (`resp.text`), and the value `resp.json()` yields
(`none` when the body is not JSON, modelling the decode exception). -/
structure HttpResponse where
  status : Nat
  text : String
  json : Option Json

/-- The HTTP oracle: URL and timeout to transport error (exception
text) or response. -/
abbrev HttpFun := String → Nat → Except String HttpResponse

/-- `requests.Response.raise_for_status`: raises exactly for status
codes 400-599 (client and server errors); the exception text is
modelled as `"HTTP <status>"`. -/
def raise_for_status (resp : HttpResponse) : Except String HttpResponse :=
  if 400 ≤ resp.status ∧ resp.status < 600 then .error ("HTTP " ++ toString resp.status)
  else .ok resp

/-- `resp.json()`: the response's JSON value, or the decode exception. -/
def respJson (resp : HttpResponse) : Except String Json :=
  match resp.json with
  | some j => .ok j
  | none => .error "Expecting value"

/-- `load_apps_config` (source lines 47-53).  `nspace` is the script's
`namespace` argument (a Lean keyword); it is an arbitrary value, as
`main` passes whatever the bootstrap config held. -/
def load_apps_config (http : HttpFun) (cdn_host : String) (nspace : Json) :
    Except String Json :=
  let base_folder := if Json.beq nspace (Json.str "standard") then "apps" else "internal-apps"
  let url := cdn_host ++ "/web/" ++ base_folder ++ "/_config/apps.json"
  match http url 10 with
  | .error e => .error e
  | .ok resp =>
    match raise_for_status resp with
    | .error e => .error e
    | .ok resp2 => respJson resp2

/-- `find_app` (source lines 56-61) on the already-iterated element list:
first element whose `id` field equals `app_id` (Python `==`, with `None`
for an absent key), `none` when no element matches; an element without
a `get` method (a non-dict) crashes (`AttributeError`). -/
def find_app : List Json → Json → Except Unit (Option Json)
  | [], _ => .ok none
  | app :: rest, app_id =>
    match app with
    | .obj kvs =>
      if Json.beq ((py_get kvs "id").getD Json.null) app_id then .ok (some (.obj kvs))
      else find_app rest app_id
    | _ => .error ()

/-- `fetch_entry_assets` (source lines 64-71). -/
def fetch_entry_assets (http : HttpFun) (cdn_host : String) (nspace : Json)
    (repo version : String) : Except String Json :=
  let base_folder := if Json.beq nspace (Json.str "standard") then "apps" else "internal-apps"
  let path := "/web/" ++ base_folder ++ "/" ++ repo ++ "/" ++ version ++ "/entry-assets.json"
  let url := cdn_host ++ path
  match http url 10 with
  | .error e => .error e
  | .ok resp =>
    match raise_for_status resp with
    | .error e => .error e
    | .ok resp2 => respJson resp2

/-- The process environment: program name, arguments after it, and the
HTTP oracle. -/
structure World where
  argv0 : String
  args : List String
  http : HttpFun

/-- Observable outcome of a run: `exit` with the captured stdout and
stderr lines, or `crash` for an uncaught exception (a traceback on
stderr and a nonzero status). -/
inductive PyOutcome where
  | exit (code : Nat) (stdout stderr : List String)
  | crash
deriving DecidableEq

/-- Source lines 94-99: namespace and appId from the bootstrap config
with defaults `standard` / `web-portal`; a truthy non-dict config
crashes on `.get` (`AttributeError`). -/
def bootstrap_fields (config : Option Json) : Except Unit (Json × Json) :=
  match config with
  | some j =>
    if j.isTruthy then
      match j with
      | .obj kvs =>
        .ok ((py_get kvs "namespace").getD (Json.str "standard"),
          (py_get kvs "appId").getD (Json.str "web-portal"))
      | _ => .error ()
    else .ok (Json.str "standard", Json.str "web-portal")
  | none => .ok (Json.str "standard", Json.str "web-portal")

/-- Source lines 119-124: read `entry_assets.get("js", [])`; a falsy
value prints the single informational line, otherwise each iterated
element is printed on its own line; exit status 0 either way. -/
def print_js_stage (entry_assets : Json) : PyOutcome :=
  match entry_assets with
  | .obj kvs =>
    let js_files := (py_get kvs "js").getD (Json.arr [])
    if !js_files.isTruthy then .exit 0 ["No JS bundles found."] []
    else
      match pyIterate js_files with
      | .ok items => .exit 0 (items.map Json.pyStr) []
      | .error _ => .crash
  | _ => .crash

/-- Source line 80-81: prepend `https://` when the argument has no URL
scheme. -/
def normalize_url (u : String) : String :=
  if url_scheme u == "" then "https://" ++ u else u

/-- Source lines 106-124, the pipeline after the apps manifest has been
fetched and parsed: iterate the manifest, locate the application,
require a truthy descriptor, read its `repo`/`version` (crashing on a
missing key), fetch the entry assets and print the JS list. -/
def after_apps (http : HttpFun) (cdn_host : String) (nspace app_id : Json)
    (apps_json : Json) : PyOutcome :=
  match pyIterate apps_json with
  | .error _ => .crash
  | .ok apps =>
    match find_app apps app_id with
    | .error _ => .crash
    | .ok app =>
      if !(match app with | some j => j.isTruthy | none => false) then
        .exit 1 []
          ["Application ID \x27" ++ Json.pyStr app_id ++
            "\x27 not found in apps configuration."]
      else
        match app with
        | some (.obj kvs) =>
          (match py_get kvs "repo", py_get kvs "version" with
           | some repoJ, some verJ =>
             (match fetch_entry_assets http cdn_host nspace
                 (Json.pyStr repoJ) (Json.pyStr verJ) with
              | .error exc => .exit 1 [] ["Unable to fetch entry assets: " ++ exc]
              | .ok entry_assets => print_js_stage entry_assets)
           | _, _ => .crash)
        | _ => .crash

namespace Yallah

/-- `main` (source lines 74-124): the full pipeline over a `World`. -/
def main (w : World) : PyOutcome :=
  match w.args with
  | [] => .exit 1 ["Usage: " ++ w.argv0 ++ " <url>"] []
  | arg1 :: _ =>
    let input_url := normalize_url arg1
    let hostname := (url_hostname input_url).getD ""
    let env_type := determine_env_type hostname
    let cdn_host :=
      if env_type == "prod" then "https://cloverstatic.com" else "https://dev.cloverstatic.com"
    match w.http input_url 10 with
    | .error exc => .exit 1 [] ["Error fetching " ++ input_url ++ ": " ++ exc]
    | .ok resp =>
      let page := resp.text
      let config := parse_bootstrap_config page
      match bootstrap_fields config with
      | .error _ => .crash
      | .ok fields =>
        let nspace := fields.1
        let app_id := fields.2
        match load_apps_config w.http cdn_host nspace with
        | .error exc => .exit 1 [] ["Unable to load apps configuration: " ++ exc]
        | .ok apps_json => after_apps w.http cdn_host nspace app_id apps_json

end Yallah

/-! ## Concrete worlds used by witnesses and counterexamples -/

/-- A response whose `json()` value is the parse of its body. -/
def respOf (status : Nat) (body : String) : HttpResponse :=
  ⟨status, body, json_loads body⟩

/-- A page without a bootstrap tag. -/
def pageNoTag : String := "<html><head></head><body>hello</body></html>"

/-- An apps manifest with one descriptor. -/
def appsBody : String :=
  "[\x7b\"id\":\"web-portal\",\"repo\":\"portal\",\"version\":\"3.2.1\"\x7d]"

/-- An entry-assets body with an empty `js` list. -/
def emptyJsBody : String := "\x7b\"js\":[]\x7d"

/-- The target URL used by the concrete worlds. -/
def pageUrlC : String := "https://shop.example.com/"

/-- The apps-manifest URL the script derives for the concrete worlds
(production delivery host, `standard` namespace). -/
def appsUrlC : String := "https://cloverstatic.com/web/apps/_config/apps.json"

/-- The entry-assets URL the script derives for the concrete worlds. -/
def entryUrlC : String := "https://cloverstatic.com/web/apps/portal/3.2.1/entry-assets.json"

/-- A fully successful world, parameterized by the JSON value of the
entry-assets response. -/
def stdWorld (entry : Json) : World :=
  ⟨"yallah.py", [pageUrlC], fun url _timeout =>
    if url == pageUrlC then .ok (respOf 200 pageNoTag)
    else if url == appsUrlC then .ok (respOf 200 appsBody)
    else if url == entryUrlC then .ok ⟨200, "", some entry⟩
    else .error "unreachable host"⟩

/-- A world parameterized by the result of the apps-manifest fetch. -/
def appsWorld (r : Except String HttpResponse) : World :=
  ⟨"yallah.py", [pageUrlC], fun url _timeout =>
    if url == pageUrlC then .ok (respOf 200 pageNoTag)
    else if url == appsUrlC then r
    else .error "unreachable host"⟩

/-- A world whose page fetch yields HTTP 500 (and whose later fetches
succeed), exercising the absence of a status check on the page fetch. -/
def page500World : World :=
  ⟨"yallah.py", [pageUrlC], fun url _timeout =>
    if url == pageUrlC then .ok (respOf 500 pageNoTag)
    else if url == appsUrlC then .ok (respOf 200 appsBody)
    else if url == entryUrlC then .ok (respOf 200 emptyJsBody)
    else .error "unreachable host"⟩

/-- A world whose apps-manifest fetch yields HTTP 304 (a non-success,
non-error status) with a usable body, and whose other fetches
succeed. -/
def apps304World : World :=
  ⟨"yallah.py", [pageUrlC], fun url _timeout =>
    if url == pageUrlC then .ok (respOf 200 pageNoTag)
    else if url == appsUrlC then .ok (respOf 304 appsBody)
    else if url == entryUrlC then .ok (respOf 200 emptyJsBody)
    else .error "unreachable host"⟩

/-! ## Properties of the regex matcher -/

/-- Captures discipline of a successful match: the capture list has one
entry per capturing atom, in order; each captured run is nonempty and
drawn from the atom's character class. -/
def CapsOK : List Atom → List (List Char) → Prop
  | [], caps => caps = []
  | .one _ :: as, caps => CapsOK as caps
  | .plus p true :: as, caps =>
    ∃ g caps2, caps = g :: caps2 ∧ g ≠ [] ∧ (∀ c ∈ g, p c = true) ∧ CapsOK as caps2
  | .plus _ false :: as, caps => CapsOK as caps

/-- A successful `firstSome` succeeds at some listed candidate. -/
theorem firstSome_some {f : Nat → Option α} :
    ∀ {ks : List Nat} {r : α}, firstSome f ks = some r → ∃ k ∈ ks, f k = some r := by
  intro ks
  induction ks with
  | nil => intro r h; simp [firstSome] at h
  | cons k ks ih =>
    intro r h
    unfold firstSome at h
    cases hf : f k with
    | some v =>
      rw [hf] at h
      exact ⟨k, by simp, hf.trans h⟩
    | none =>
      rw [hf] at h
      obtain ⟨k2, hk2, hfk2⟩ := ih h
      exact ⟨k2, by simp [hk2], hfk2⟩

/-- Membership in `countdown n` is the interval `[1, n]`. -/
theorem mem_countdown : ∀ {n k : Nat}, k ∈ countdown n → 1 ≤ k ∧ k ≤ n := by
  intro n
  induction n with
  | zero => intro k h; simp [countdown] at h
  | succ n ih =>
    intro k h
    simp only [countdown, List.mem_cons] at h
    rcases h with h | h
    · omega
    · have := ih h; omega

/-- The `takeWhile` prefix bounds `take`: the first `k` characters all
satisfy the class when `k` does not exceed the `takeWhile` length. -/
theorem take_sat {p : Char → Bool} :
    ∀ (cs : List Char) (k : Nat), k ≤ (cs.takeWhile p).length →
      ∀ c ∈ cs.take k, p c = true := by
  intro cs
  induction cs with
  | nil => intro k _ c hc; simp at hc
  | cons a cs ih =>
    intro k hk c hc
    cases k with
    | zero => simp at hc
    | succ k =>
      by_cases hp : p a
      · rw [List.takeWhile_cons_of_pos hp] at hk
        simp only [List.length_cons, Nat.add_le_add_iff_right] at hk
        simp only [List.take_succ_cons, List.mem_cons] at hc
        rcases hc with rfl | hc
        · exact hp
        · exact ih k (by omega) c hc
      · rw [List.takeWhile_cons_of_neg hp] at hk
        simp at hk
  
/-- `takeWhile` never exceeds the list length. -/
theorem takeWhile_len_le {p : Char → Bool} : ∀ cs : List Char,
    (cs.takeWhile p).length ≤ cs.length := by
  intro cs
  induction cs with
  | nil => simp
  | cons a cs ih =>
    by_cases hp : p a
    · rw [List.takeWhile_cons_of_pos hp]; simpa using ih
    · rw [List.takeWhile_cons_of_neg hp]; simp

/-- A `take` of at least one character from a long enough list is
nonempty. -/
theorem take_ne_nil {cs : List Char} {k : Nat} (h1 : 1 ≤ k) (h2 : k ≤ cs.length) :
    cs.take k ≠ [] := by
  intro hcon
  have hlen := congrArg List.length hcon
  simp only [List.length_take, List.length_nil] at hlen
  omega

/-- A successful match respects the captures discipline. -/
theorem matchAtoms_capsOk : ∀ (as : List Atom) (cs : List Char) (caps : List (List Char)),
    matchAtoms as cs = some caps → CapsOK as caps := by
  intro as
  induction as with
  | nil =>
    intro cs caps h
    simp only [matchAtoms, Option.some_inj] at h
    simp [CapsOK, ← h]
  | cons a as ih =>
    intro cs caps h
    cases a with
    | one p =>
      cases cs with
      | nil => simp [matchAtoms] at h
      | cons c cs2 =>
        simp only [matchAtoms] at h
        by_cases hp : p c
        · rw [if_pos hp] at h
          exact ih cs2 caps h
        · rw [if_neg hp] at h; cases h
    | plus p cap =>
      simp only [matchAtoms] at h
      obtain ⟨k, hkmem, hfk⟩ := firstSome_some h
      obtain ⟨hk1, hk2⟩ := mem_countdown hkmem
      cases hm : matchAtoms as (cs.drop k) with
      | none => rw [hm] at hfk; cases hfk
      | some caps2 =>
        rw [hm] at hfk
        simp only [Option.some_inj] at hfk
        have hok := ih _ _ hm
        cases cap with
        | false => simpa [CapsOK, ← hfk] using hok
        | true =>
          refine ⟨cs.take k, caps2, hfk.symm, ?_, ?_, hok⟩
          · exact take_ne_nil hk1 (le_trans hk2 (takeWhile_len_le cs))
          · exact take_sat cs k hk2

/-- A successful search is a successful match at some suffix. -/
theorem searchFrom_some {atoms : List Atom} :
    ∀ {cs : List Char} {caps : List (List Char)}, searchFrom atoms cs = some caps →
      ∃ cs2, matchAtoms atoms cs2 = some caps := by
  intro cs
  induction cs with
  | nil => intro caps h; exact ⟨[], h⟩
  | cons c rest ih =>
    intro caps h
    unfold searchFrom at h
    cases hm : matchAtoms atoms (c :: rest) with
    | some v =>
      rw [hm] at h
      exact ⟨c :: rest, hm.trans h⟩
    | none => rw [hm] at h; exact ih h

/-- A successful bootstrap-regex search yields exactly two groups, and
group 1 (the `src` part before `#`) is a nonempty run of characters
other than `"` and `#`; group 2 likewise avoids both quotes. -/
theorem regexSearch_groups {page : String} {g1 g2 : String}
    (h : regexSearch page = some (g1, g2)) :
    (g1 ≠ "" ∧ ∀ c ∈ g1.toList, c ≠ dquote ∧ c ≠ '#') ∧
      (g2 ≠ "" ∧ ∀ c ∈ g2.toList, c ≠ dquote ∧ c ≠ squote) := by
  unfold regexSearch at h
  cases hs : searchFrom clRegex page.toList with
  | none => rw [hs] at h; cases h
  | some caps =>
    rw [hs] at h
    obtain ⟨cs2, hm⟩ := searchFrom_some hs
    have hok : CapsOK clRegex caps := matchAtoms_capsOk _ _ _ hm
    rw [show clRegex = lits "<script" ++ [Atom.plus notGtCls false] ++ lits "id=" ++
        [Atom.one isQuote] ++ lits "cl-bootstrap" ++ [Atom.one isQuote] ++
        [Atom.plus notGtCls false] ++ lits "src=" ++
        [Atom.one isQuote, Atom.plus g1Cls true, Atom.one (fun c => c == '#'),
          Atom.plus g2Cls true, Atom.one isQuote] from rfl] at hok
    simp only [lits, String.toList, List.map, List.cons_append, List.nil_append,
      CapsOK] at hok
    obtain ⟨l1, caps2, rfl, hne1, hsat1, hok2⟩ := hok
    obtain ⟨l2, caps3, rfl, hne2, hsat2, hok3⟩ := hok2
    subst hok3
    simp only [Option.some_inj] at h
    injection h with h1 h2
    subst h1; subst h2
    constructor
    · constructor
      · intro hcon
        exact hne1 (congrArg String.data hcon)
      · intro c hc
        have := hsat1 c hc
        simp only [g1Cls, Bool.and_eq_true, bne_iff_ne, ne_eq] at this
        exact this
    · constructor
      · intro hcon
        exact hne2 (congrArg String.data hcon)
      · intro c hc
        have := hsat2 c hc
        simp only [g2Cls, Bool.and_eq_true, bne_iff_ne, ne_eq] at this
        exact this

/-! ## Shared lemmas and fixtures for the claim theorems -/

/-- `String.append` is associative. -/
theorem str_append_assoc (a b c : String) : a ++ b ++ c = a ++ (b ++ c) := by
  cases a; cases b; cases c
  apply congrArg String.mk
  exact List.append_assoc _ _ _

/-- Fold three adjacent literal segments of a right-associated append. -/
theorem lit_fold3 (a b c d : String) (h : a ++ b ++ c = d) :
    ∀ X : String, a ++ (b ++ (c ++ X)) = d ++ X := by
  intro X
  rw [← str_append_assoc, ← str_append_assoc, h]

/-- The shared shape of both manifest fetches: one GET at the given URL
with timeout 10, `raise_for_status`, then `resp.json()`. -/
def manifest_request (http : HttpFun) (url : String) : Except String Json :=
  match http url 10 with
  | .error e => .error e
  | .ok resp =>
    match raise_for_status resp with
    | .error e => .error e
    | .ok resp2 => respJson resp2

/-- An HTTP oracle that always fails. -/
def http0 : HttpFun := fun _ _ => .error "unreachable"

/-- Two application descriptors, ids `a` and `b`. -/
def exApps : List (List (String × Json)) :=
  [[("id", Json.str "a"), ("repo", Json.str "ra")],
   [("id", Json.str "b"), ("repo", Json.str "rb")]]

/-- A page whose bootstrap fragment is the base64 of `[1, 2]` — valid
JSON that is not a JSON object. -/
def arrayFragTag : String :=
  "<script id=\"cl-bootstrap\" src=\"/app.js#WzEsIDJd\"></script>"

/-- A world serving `arrayFragTag` as the page. -/
def arrayCfgWorld : World :=
  ⟨"yallah.py", [pageUrlC], fun url _timeout =>
    if url == pageUrlC then .ok (respOf 200 arrayFragTag)
    else .error "unreachable host"⟩

/-- The canonical base64 encoding of the UTF-8 JSON text
`\x7b"namespace":"standard","appId":"x"\x7d`. -/
def fragB64 : String := "eyJuYW1lc3BhY2UiOiJzdGFuZGFyZCIsImFwcElkIjoieCJ9"

/-! ## Claim theorems -/

/-- C1 (amended): a network exception on the initial page fetch
terminates the run with exit status 1 and the single diagnostic line
`Error fetching <url>: <exc>` on stderr.  (The claim's further assertion
that a non-2xx page response is also fatal is refuted by
`page_fetch_non2xx_not_fatal`: `main` performs no status check on this
fetch.) -/
theorem page_fetch_network_error_fatal (w : World) (url : String) (rest : List String)
    (msg : String) (hargs : w.args = url :: rest)
    (hhttp : w.http (normalize_url url) 10 = .error msg) :
    Yallah.main w = .exit 1 [] ["Error fetching " ++ normalize_url url ++ ": " ++ msg] := by
  obtain ⟨a0, args, http⟩ := w
  simp only at hargs hhttp
  subst hargs
  simp only [Yallah.main]
  rw [hhttp]

/-- C1 witness: a concrete world whose page fetch raises. -/
theorem page_fetch_network_error_fatal_witness :
    Yallah.main ⟨"yallah.py", ["https://shop.example.com/"], fun _ _ => .error "boom"⟩ =
      .exit 1 [] ["Error fetching https://shop.example.com/: boom"] :=
  page_fetch_network_error_fatal _ "https://shop.example.com/" [] "boom" rfl rfl

/-- C1 counterexample: the page fetch returns HTTP 500, yet the program
continues with the 500 body and finishes with exit status 0 — refuting
the claim that every non-2xx page response exits with status 1. -/
theorem page_fetch_non2xx_not_fatal :
    page500World.http pageUrlC 10 = .ok (respOf 500 pageNoTag) ∧
    (respOf 500 pageNoTag).status = 500 ∧
    Yallah.main page500World = .exit 0 ["No JS bundles found."] [] :=
  ⟨rfl, rfl, rfl⟩

/-- C2 (code bug): a matching tag whose fragment decodes to the JSON
array `[1, 2]` makes `parse_bootstrap_config` return that array rather
than `none` — contradicting its `Optional[Dict[str, str]]` annotation —
and the truthy non-dict then crashes `main` at `config.get`
(`AttributeError`). -/
theorem parse_bootstrap_config_nonobject_returned :
    parse_bootstrap_config arrayFragTag = some (Json.arr [Json.num 1, Json.num 2]) ∧
    Yallah.main arrayCfgWorld = .crash :=
  ⟨rfl, rfl⟩

/-- C3: `determine_env_type` agrees everywhere with the claim's
algorithm (`resolve_environment_spec`), always yields `prod` or `dev`,
yields `prod` on the empty hostname, and yields `prod` whenever the
first label is `sandbox` case-insensitively, regardless of the other
labels. -/
theorem determine_env_type_conforms :
    (∀ hostname, determine_env_type hostname = resolve_environment_spec hostname) ∧
    (∀ hostname, determine_env_type hostname = "prod" ∨ determine_env_type hostname = "dev") ∧
    determine_env_type "" = "prod" ∧
    (∀ hostname p0 rest, splitDot hostname.toList = p0 :: rest → strLower p0 = "sandbox" →
      determine_env_type hostname = "prod") := by
  have part1 : ∀ hostname, determine_env_type hostname = resolve_environment_spec hostname := by
    intro h
    unfold determine_env_type resolve_environment_spec
    cases hs : splitDot h.toList with
    | nil => simp
    | cons p0 rest =>
      cases rest with
      | nil =>
        by_cases h0 : strLower p0 = "sandbox" <;> simp [h0]
      | cons p1 rest2 =>
        by_cases h0 : strLower p0 = "sandbox"
        · simp [h0]
        · by_cases h1 : strLower p1 = "dev"
          · simp [h0, h1]
          · by_cases h2 : strLower p1 = "ondemand" <;> simp [h0, h1, h2]
  refine ⟨part1, ?_, rfl, ?_⟩
  · intro h
    unfold determine_env_type
    cases hs : splitDot h.toList with
    | nil => simp
    | cons p0 rest =>
      cases rest with
      | nil =>
        by_cases h0 : strLower p0 = "sandbox" <;> simp [h0]
      | cons p1 rest2 =>
        by_cases h0 : strLower p0 = "sandbox"
        · simp [h0]
        · by_cases h1 : strLower p1 = "dev"
          · simp [h0, h1]
          · by_cases h2 : strLower p1 = "ondemand" <;> simp [h0, h1, h2]
  · intro h p0 rest hs h0
    unfold determine_env_type
    rw [hs]
    simp [h0]

/-- C3 witness: the sandbox override at a concrete mixed-case hostname
whose second label would otherwise mean `dev`. -/
theorem determine_env_type_conforms_witness :
    determine_env_type "SandBox.dev.example.com" = "prod" :=
  determine_env_type_conforms.2.2.2 "SandBox.dev.example.com" "SandBox"
    ["dev", "example", "com"] rfl rfl

/-- C4: `find_app` returns the first element (in list order) whose `id`
field equals the identifier — stated via `List.find?` — returns `none`
exactly when no element's `id` matches, and behaves as the claim's
concrete example requires over ids `[a, b]`. -/
theorem find_app_first_by_id :
    (∀ (apps : List (List (String × Json))) (i : String),
      find_app (apps.map Json.obj) (Json.str i) =
        .ok ((apps.find? fun kvs =>
          Json.beq ((py_get kvs "id").getD Json.null) (Json.str i)).map Json.obj)) ∧
    (∀ (apps : List (List (String × Json))) (i : String),
      (∀ kvs ∈ apps, (py_get kvs "id").getD Json.null ≠ Json.str i) →
      find_app (apps.map Json.obj) (Json.str i) = .ok none) ∧
    find_app (exApps.map Json.obj) (Json.str "b") =
      .ok (some (Json.obj [("id", Json.str "b"), ("repo", Json.str "rb")])) ∧
    find_app (exApps.map Json.obj) (Json.str "c") = .ok none := by
  have part1 : ∀ (apps : List (List (String × Json))) (i : String),
      find_app (apps.map Json.obj) (Json.str i) =
        .ok ((apps.find? fun kvs =>
          Json.beq ((py_get kvs "id").getD Json.null) (Json.str i)).map Json.obj) := by
    intro apps i
    induction apps with
    | nil => rfl
    | cons kvs apps ih =>
      simp only [List.map_cons, find_app, List.find?]
      by_cases hb : Json.beq ((py_get kvs "id").getD Json.null) (Json.str i) = true
      · rw [if_pos hb, hb]
        rfl
      · have hbf : Json.beq ((py_get kvs "id").getD Json.null) (Json.str i) = false := by
          simpa using hb
        rw [if_neg hb, hbf]
        exact ih
  refine ⟨part1, ?_, rfl, rfl⟩
  intro apps i h
  rw [part1]
  have hnone : (apps.find? fun kvs =>
      Json.beq ((py_get kvs "id").getD Json.null) (Json.str i)) = none := by
    rw [List.find?_eq_none]
    intro kvs hm
    simp only [Json.beq_str_iff]
    exact h kvs hm
  rw [hnone]
  rfl

/-- C4 witness: the no-match branch at the claim's concrete example. -/
theorem find_app_first_by_id_witness :
    find_app (exApps.map Json.obj) (Json.str "c") = .ok none := by
  refine find_app_first_by_id.2.1 exApps "c" ?_
  intro kvs hm
  simp only [exApps, List.mem_cons, List.not_mem_nil, or_false] at hm
  rcases hm with rfl | rfl <;> simp [py_get]

/-- C5: both manifest fetchers consist of exactly one GET with timeout
10 at the URL built from the delivery host and the folder, where the
folder is `apps` precisely when the namespace equals `"standard"` and
`internal-apps` for every other namespace value:
`{cdn}/web/{folder}/_config/apps.json` for the apps manifest and
`{cdn}/web/{folder}/{repo}/{version}/entry-assets.json` for the entry
assets. -/
theorem manifest_urls_and_timeout :
    ∀ (http : HttpFun) (cdn : String) (nspace : Json) (repo version : String),
    (nspace = Json.str "standard" →
      load_apps_config http cdn nspace =
        manifest_request http (cdn ++ "/web/apps/_config/apps.json") ∧
      fetch_entry_assets http cdn nspace repo version =
        manifest_request http
          (cdn ++ "/web/apps/" ++ repo ++ "/" ++ version ++ "/entry-assets.json")) ∧
    (nspace ≠ Json.str "standard" →
      load_apps_config http cdn nspace =
        manifest_request http (cdn ++ "/web/internal-apps/_config/apps.json") ∧
      fetch_entry_assets http cdn nspace repo version =
        manifest_request http
          (cdn ++ "/web/internal-apps/" ++ repo ++ "/" ++ version ++ "/entry-assets.json")) := by
  intro http cdn nspace repo version
  constructor
  · rintro rfl
    constructor
    · have hurl : cdn ++ "/web/" ++ "apps" ++ "/_config/apps.json" =
          cdn ++ "/web/apps/_config/apps.json" := by
        rw [str_append_assoc, str_append_assoc]
        exact congrArg (cdn ++ ·) rfl
      exact congrArg (fun u => manifest_request http u) hurl
    · have hurl : cdn ++
            ("/web/" ++ "apps" ++ "/" ++ repo ++ "/" ++ version ++ "/entry-assets.json") =
          cdn ++ "/web/apps/" ++ repo ++ "/" ++ version ++ "/entry-assets.json" := by
        simp only [str_append_assoc]
        rw [lit_fold3 "/web/" "apps" "/" "/web/apps/" rfl]
      exact congrArg (fun u => manifest_request http u) hurl
  · intro hne
    have hbf : Json.beq nspace (Json.str "standard") = false := by
      rw [Bool.eq_false_iff]
      intro hcon
      exact hne ((Json.beq_str_iff nspace "standard").mp hcon)
    have step1 : load_apps_config http cdn nspace = manifest_request http
        (cdn ++ "/web/" ++
          (if Json.beq nspace (Json.str "standard") then "apps" else "internal-apps") ++
          "/_config/apps.json") := rfl
    have step2 : fetch_entry_assets http cdn nspace repo version = manifest_request http
        (cdn ++ ("/web/" ++
          (if Json.beq nspace (Json.str "standard") then "apps" else "internal-apps") ++
          "/" ++ repo ++ "/" ++ version ++ "/entry-assets.json")) := rfl
    constructor
    · rw [step1, hbf]
      rw [if_neg (by simp)]
      have hurl : cdn ++ "/web/" ++ "internal-apps" ++ "/_config/apps.json" =
          cdn ++ "/web/internal-apps/_config/apps.json" := by
        rw [str_append_assoc, str_append_assoc]
        exact congrArg (cdn ++ ·) rfl
      exact congrArg (fun u => manifest_request http u) hurl
    · rw [step2, hbf]
      rw [if_neg (by simp)]
      have hurl : cdn ++ ("/web/" ++ "internal-apps" ++ "/" ++ repo ++ "/" ++ version ++
            "/entry-assets.json") =
          cdn ++ "/web/internal-apps/" ++ repo ++ "/" ++ version ++ "/entry-assets.json" := by
        simp only [str_append_assoc]
        rw [lit_fold3 "/web/" "internal-apps" "/" "/web/internal-apps/" rfl]
      exact congrArg (fun u => manifest_request http u) hurl

/-- C5 witness: both folder branches at concrete arguments. -/
theorem manifest_urls_and_timeout_witness :
    load_apps_config http0 "https://h" (Json.str "standard") =
      manifest_request http0 "https://h/web/apps/_config/apps.json" ∧
    fetch_entry_assets http0 "https://h" (Json.str "other") "r" "v" =
      manifest_request http0 "https://h/web/internal-apps/r/v/entry-assets.json" :=
  ⟨((manifest_urls_and_timeout http0 "https://h" (Json.str "standard") "r" "v").1 rfl).1,
   ((manifest_urls_and_timeout http0 "https://h" (Json.str "other") "r" "v").2
      (by simp)).2⟩

/-- C6: with the entry-assets manifest holding a `js` list of paths,
the final stage prints exactly those paths, one line each in manifest
order, and exits with status 0; an empty or absent `js` list prints
exactly the single line `No JS bundles found.` with status 0.  The last
three conjuncts run the whole program on such manifests. -/
theorem js_paths_printed_in_order :
    (∀ (kvs : List (String × Json)) (paths : List String),
      py_get kvs "js" = some (Json.arr (paths.map Json.str)) → paths ≠ [] →
      print_js_stage (Json.obj kvs) = .exit 0 paths []) ∧
    (∀ kvs : List (String × Json),
      py_get kvs "js" = none ∨ py_get kvs "js" = some (Json.arr []) →
      print_js_stage (Json.obj kvs) = .exit 0 ["No JS bundles found."] []) ∧
    (∀ paths : List String, paths ≠ [] →
      Yallah.main (stdWorld (Json.obj [("js", Json.arr (paths.map Json.str))])) =
        .exit 0 paths []) ∧
    Yallah.main (stdWorld (Json.obj [("js", Json.arr [])])) =
      .exit 0 ["No JS bundles found."] [] ∧
    Yallah.main (stdWorld (Json.obj [])) = .exit 0 ["No JS bundles found."] [] := by
  have hmain : ∀ e : Json, Yallah.main (stdWorld e) = print_js_stage e := fun _ => rfl
  have part1 : ∀ (kvs : List (String × Json)) (paths : List String),
      py_get kvs "js" = some (Json.arr (paths.map Json.str)) → paths ≠ [] →
      print_js_stage (Json.obj kvs) = .exit 0 paths [] := by
    intro kvs paths hjs hne
    simp only [print_js_stage]
    rw [hjs]
    cases paths with
    | nil => exact absurd rfl hne
    | cons p ps =>
      simp [Json.isTruthy, pyIterate, List.map_map, Function.comp, Json.pyStr]
      have hcomp : Json.pyStr ∘ Json.str = id := funext fun _ => rfl
      rw [hcomp, List.map_id]
  have part2 : ∀ kvs : List (String × Json),
      py_get kvs "js" = none ∨ py_get kvs "js" = some (Json.arr []) →
      print_js_stage (Json.obj kvs) = .exit 0 ["No JS bundles found."] [] := by
    intro kvs h
    simp only [print_js_stage]
    rcases h with h | h <;> rw [h] <;> rfl
  refine ⟨part1, part2, ?_, ?_, ?_⟩
  · intro paths hne
    rw [hmain]
    exact part1 [("js", Json.arr (paths.map Json.str))] paths rfl hne
  · rw [hmain]
    exact part2 [("js", Json.arr [])] (Or.inr rfl)
  · rw [hmain]
    exact part2 [] (Or.inl rfl)

/-- C6 witness: the spec's two-bundle scenario and the empty-list
scenario, both through the printing stage and end to end. -/
theorem js_paths_printed_in_order_witness :
    print_js_stage (Json.obj [("js",
        Json.arr [Json.str "main.abc123.js", Json.str "vendor.def456.js"])]) =
      .exit 0 ["main.abc123.js", "vendor.def456.js"] [] ∧
    Yallah.main (stdWorld (Json.obj [("js",
        Json.arr (["main.abc123.js", "vendor.def456.js"].map Json.str))])) =
      .exit 0 ["main.abc123.js", "vendor.def456.js"] [] :=
  ⟨js_paths_printed_in_order.1 _ ["main.abc123.js", "vendor.def456.js"] rfl (by simp),
   js_paths_printed_in_order.2.2.1 ["main.abc123.js", "vendor.def456.js"] (by simp)⟩

/-- C7 (amended): when the apps-manifest fetch raises — a network
failure, or via `raise_for_status` an HTTP status in the error range
400-599 (e.g. 500) — the program exits with status 1 and a single
stderr line referencing the apps configuration.  (The claim's "any
non-success status" is refuted for 3xx by
`apps_fetch_304_not_fatal`: `raise_for_status` only raises on
400-599.) -/
theorem apps_fetch_error_fatal :
    (∀ (s : Nat) (b : String), 400 ≤ s → s < 600 →
      Yallah.main (appsWorld (.ok (respOf s b))) =
        .exit 1 [] ["Unable to load apps configuration: HTTP " ++ toString s]) ∧
    (∀ msg : String, Yallah.main (appsWorld (.error msg)) =
      .exit 1 [] ["Unable to load apps configuration: " ++ msg]) := by
  constructor
  · intro s b h1 h2
    have hr : raise_for_status (respOf s b) = .error ("HTTP " ++ toString s) := by
      unfold raise_for_status respOf
      rw [if_pos ⟨h1, h2⟩]
    calc Yallah.main (appsWorld (.ok (respOf s b)))
        = (match (match raise_for_status (respOf s b) with
              | .error e => (.error e : Except String Json)
              | .ok resp2 => respJson resp2) with
            | .error exc => PyOutcome.exit 1 [] ["Unable to load apps configuration: " ++ exc]
            | .ok aj => after_apps (appsWorld (.ok (respOf s b))).http
                "https://cloverstatic.com" (Json.str "standard") (Json.str "web-portal") aj) :=
          rfl
      _ = .exit 1 [] ["Unable to load apps configuration: HTTP " ++ toString s] := by
          rw [hr]
          rfl
  · intro msg
    rfl

/-- C7 witness: the spec's HTTP 500 scenario, and a network failure. -/
theorem apps_fetch_error_fatal_witness :
    Yallah.main (appsWorld (.ok (respOf 500 "oops"))) =
      .exit 1 [] ["Unable to load apps configuration: HTTP 500"] ∧
    Yallah.main (appsWorld (.error "connection timed out")) =
      .exit 1 [] ["Unable to load apps configuration: connection timed out"] :=
  ⟨apps_fetch_error_fatal.1 500 "oops" (by decide) (by decide),
   apps_fetch_error_fatal.2 "connection timed out"⟩

/-- C7 counterexample: HTTP 304 is a non-success status, yet the
program accepts the apps response and finishes with exit status 0. -/
theorem apps_fetch_304_not_fatal :
    apps304World.http appsUrlC 10 = .ok (respOf 304 appsBody) ∧
    (respOf 304 appsBody).status = 304 ∧
    Yallah.main apps304World = .exit 0 ["No JS bundles found."] [] :=
  ⟨rfl, rfl, rfl⟩

/-- C8: `parse_bootstrap_config` is a total function (as every Lean
function is); it returns `none` whenever the regex finds no bootstrap
tag, and `none` whenever a tag is found but its fragment fails
base64-or-UTF-8 decoding. -/
theorem parse_bootstrap_config_failure_none :
    (∀ page, regexSearch page = none → parse_bootstrap_config page = none) ∧
    (∀ page g1 g2, regexSearch page = some (g1, g2) →
      (b64decode g2).bind utf8Decode = none → parse_bootstrap_config page = none) := by
  constructor
  · intro page h
    unfold parse_bootstrap_config
    rw [h]
  · intro page g1 g2 h hd
    unfold parse_bootstrap_config
    rw [h]
    simp only [hd]

/-- C8 witness: HTML without a tag, and a tag whose fragment `YQ` is
invalid base64 (incorrect padding). -/
theorem parse_bootstrap_config_failure_none_witness :
    parse_bootstrap_config "<html><body>plain</body></html>" = none ∧
    parse_bootstrap_config "<script id=\"cl-bootstrap\" src=\"/x.js#YQ\">" = none :=
  ⟨parse_bootstrap_config_failure_none.1 "<html><body>plain</body></html>" rfl,
   parse_bootstrap_config_failure_none.2 "<script id=\"cl-bootstrap\" src=\"/x.js#YQ\">"
     "/x.js" "YQ" rfl rfl⟩

/-- C9: whenever the bootstrap regex matches with the fragment equal to
the base64 encoding of `\x7b"namespace":"standard","appId":"x"\x7d`,
extraction returns exactly that mapping. -/
theorem bootstrap_roundtrip (page : String) (g1 : String)
    (h : regexSearch page = some (g1, fragB64)) :
    parse_bootstrap_config page =
      some (Json.obj [("namespace", Json.str "standard"), ("appId", Json.str "x")]) := by
  unfold parse_bootstrap_config
  rw [h]
  rfl

/-- C9 witness: a concrete page carrying the encoded mapping. -/
theorem bootstrap_roundtrip_witness :
    parse_bootstrap_config
        ("<script id=\"cl-bootstrap\" src=\"/a#eyJuYW1lc3BhY2UiOiJzdGFuZGFyZCIsImFwcElkIjoieCJ9\"></script>") =
      some (Json.obj [("namespace", Json.str "standard"), ("appId", Json.str "x")]) :=
  bootstrap_roundtrip _ "/a" (by decide)

/-- C10: group 1 of any successful match (the `src` part before `#`) is
nonempty and free of `"` and `#`; a tag whose `src` attribute precedes
its `id` attribute does not match even though it carries
`id="cl-bootstrap"` and a `#` fragment — the same attributes with `id`
first do match — and a tag whose `src` value begins directly with `#`
(empty group 1) does not match. -/
theorem regex_requires_id_before_src_and_nonempty_src :
    (∀ page g1 g2, regexSearch page = some (g1, g2) →
      g1 ≠ "" ∧ ∀ c ∈ g1.toList, c ≠ dquote ∧ c ≠ '#') ∧
    regexSearch "<script src=\"/app.js#WzEsIDJd\" id=\"cl-bootstrap\">" = none ∧
    regexSearch "<script id=\"cl-bootstrap\" src=\"/app.js#WzEsIDJd\">" =
      some ("/app.js", "WzEsIDJd") ∧
    regexSearch "<script id=\"cl-bootstrap\" src=\"#WzEsIDJd\">" = none ∧
    parse_bootstrap_config "<script src=\"/app.js#WzEsIDJd\" id=\"cl-bootstrap\">" = none ∧
    parse_bootstrap_config "<script id=\"cl-bootstrap\" src=\"#WzEsIDJd\">" = none := by
  refine ⟨?_, by decide, by decide, by decide, rfl, rfl⟩
  intro page g1 g2 h
  exact (regexSearch_groups h).1

/-- C10 witness: the group-1 discipline at a concrete match. -/
theorem regex_requires_id_before_src_witness :
    ("/app.js" : String) ≠ "" ∧ ∀ c ∈ ("/app.js" : String).toList, c ≠ dquote ∧ c ≠ '#' :=
  regex_requires_id_before_src_and_nonempty_src.1
    "<script id=\"cl-bootstrap\" src=\"/app.js#WzEsIDJd\">" "/app.js" "WzEsIDJd" (by decide)
